import Mathlib

/-!
Shallow embedding of the raw-transaction RPC core of the repository
(src/rpc/rawtransaction.cpp): the pending-pool admission logic
(sendrawtransaction), the merkle-proof construction and verification entry
points (gettxoutproof / verifytxoutproof), and the signing engine driver
(signrawtransaction).  External capabilities that live outside the provided
source file (script signing and evaluation, mempool validation, block
storage, hashing) are passed in as explicit parameters; helpers that the
specification describes but whose code is not under src/ are modelled from
the specification and marked as such in their doc comments.

Hashes and transaction ids are modelled as strings (hex digests compare by
value only); amounts are integers; scripts are byte lists.
-/

namespace MilRawTx

abbrev Byte := Nat
abbrev Script := List Byte
abbrev Txid := String
abbrev Hash256 := String

/-- COutPoint: reference to a specific output of a prior transaction. -/
structure OutPoint where
  hash : Txid
  n : Nat
deriving DecidableEq, Repr

/-- CTxOut: an amount plus a locking script. -/
structure TxOut where
  nValue : Int
  scriptPubKey : Script
deriving DecidableEq, Repr

/-- CTxIn: outpoint reference, unlocking script, sequence number. -/
structure TxIn where
  prevout : OutPoint
  scriptSig : Script
  nSequence : Nat
deriving DecidableEq, Repr

/-- CScriptWitness: ordered stack of byte strings. -/
structure ScriptWitness where
  stack : List (List Byte)
deriving DecidableEq, Repr

/-- CMutableTransaction with its per-input witness vector (CTxWitness). -/
structure MutableTransaction where
  nVersion : Int
  nLockTime : Nat
  vin : List TxIn
  vout : List TxOut
  wit : List ScriptWitness
deriving DecidableEq, Repr

/-- CCoins: the unspent outputs of one transaction.  A `none` entry is a
pruned/spent (null) output; `nHeight` is the containing block height, with
the mempool sentinel height for unconfirmed coins. -/
structure CCoins where
  vout : List (Option TxOut)
  nHeight : Int
deriving Repr

/-- CCoins::IsAvailable: index in range and the output is not null. -/
def CCoins.IsAvailable (c : CCoins) (n : Nat) : Bool :=
  match c.vout.get? n with
  | some (some _) => true
  | _ => false

/-- The output at index n when available (combines the bounds and null
checks done by IsAvailable). -/
def CCoins.outAt (c : CCoins) (n : Nat) : Option TxOut :=
  match c.vout.get? n with
  | some (some o) => some o
  | _ => none

/-- A coins view: txid to CCoins, as queried through CCoinsViewCache. -/
abbrev CoinsView := Txid → Option CCoins

/-- RPC error categories used by rawtransaction.cpp (rpc/protocol.h codes). -/
inductive RpcErrorCode where
  | invalidParameter
  | invalidAddressOrKey
  | internalError
  | deserializationError
  | transactionError
  | transactionRejected
  | transactionAlreadyInChain
deriving DecidableEq, Repr

structure RpcError where
  code : RpcErrorCode
  message : String
deriving DecidableEq, Repr

/-! ## sendrawtransaction (lines 961-1021)

The admission decision after the hex decode: look up existing confirmed
coins and pending-pool membership, then either validate and relay, succeed
silently, or fail hard.  AcceptToMemoryPool is an external capability; its
outcome for the given fee ceiling is a parameter. -/

/-- Outcome of the external pool-validation capability
(AcceptToMemoryPool): accepted, rejected with an invalid state
(code/reason), rejected for unresolved parents, or otherwise rejected. -/
inductive PoolValidationOutcome where
  | accepted
  | invalidRejected (code : Int) (reason : String)
  | missingInputs
  | otherRejected (reason : String)
deriving DecidableEq, Repr

/-- Shared node state consulted by sendrawtransaction: the chain-state
coins view (pcoinsTip) and pending-pool membership (mempool.exists). -/
structure NodeState where
  coinsTip : CoinsView
  mempoolContains : Txid → Bool

/-- fHaveChain: existing coins found and nHeight < 1000000000. -/
def haveChain (st : NodeState) (hashTx : Txid) : Bool :=
  match st.coinsTip hashTx with
  | some c => decide (c.nHeight < 1000000000)
  | none => false

/-- sendrawtransaction after the hex decode: `validate` is the external
AcceptToMemoryPool capability applied to the decoded transaction, as a
function of the fee ceiling passed to it.  Success returns the transaction
id (the relay announcement is fire-and-forget and not modelled). -/
def sendrawtransaction (st : NodeState) (validate : Int → PoolValidationOutcome)
    (hashTx : Txid) (maxTxFee : Int) (allowHighFees : Bool) :
    Except RpcError Txid :=
  let nMaxRawTxFee : Int := if allowHighFees then 0 else maxTxFee
  let fHaveMempool := st.mempoolContains hashTx
  let fHaveChain := haveChain st hashTx
  if !fHaveMempool && !fHaveChain then
    match validate nMaxRawTxFee with
    | .accepted => .ok hashTx
    | .invalidRejected code reason =>
        .error ⟨.transactionRejected, toString code ++ ": " ++ reason⟩
    | .missingInputs => .error ⟨.transactionError, "Missing inputs"⟩
    | .otherRejected reason => .error ⟨.transactionError, reason⟩
  else if fHaveChain then
    .error ⟨.transactionAlreadyInChain, "transaction already in block chain"⟩
  else
    .ok hashTx

/-! ## verifytxoutproof (lines 420-452)

The deserialized proof carries a block header (its merkle root, and its
hash as computed by the external header-hash function) and a partial
merkle tree.  CPartialMerkleTree::ExtractMatches lives in merkleblock.cpp,
outside the provided sources, so its outcome — the recomputed root and the
matched ids — is passed in as data. -/

/-- The header of a deserialized CMerkleBlock: its merkle root field and
the value of header.GetHash() (external hashing, treated as data). -/
structure MerkleBlockHeader where
  hashMerkleRoot : Hash256
  headerHash : Hash256
deriving DecidableEq, Repr

/-- verifytxoutproof after deserialization.  `chainActiveContains b` models
`mapBlockIndex.count(b) && chainActive.Contains(mapBlockIndex[b])`;
`extractedRoot`/`vMatch` are the outcome of ExtractMatches.  A root
mismatch returns the empty id list; a header off the best chain is an RPC
error; otherwise the matched ids are returned. -/
def verifytxoutproof (chainActiveContains : Hash256 → Bool)
    (hdr : MerkleBlockHeader) (extractedRoot : Hash256)
    (vMatch : List Hash256) : Except RpcError (List Hash256) :=
  if extractedRoot ≠ hdr.hashMerkleRoot then
    .ok []
  else if !chainActiveContains hdr.headerHash then
    .error ⟨.invalidAddressOrKey, "Block not found in chain"⟩
  else
    .ok vMatch

/-! ## gettxoutproof (lines 339-418)

Argument parsing validates each txid string (length 64, hex) and rejects
duplicates while building the requested id set; then a target block is
resolved (explicit block hash, the utxo set, or the transaction index),
read from disk, checked to contain every requested id, and handed to the
external CMerkleBlock constructor. -/

/-- IsHex (utilstrencodings.cpp): every character a hex digit, non-empty,
even length. -/
def isHexDigit (c : Char) : Bool :=
  (decide ('0' ≤ c) && decide (c ≤ '9')) ||
  (decide ('a' ≤ c) && decide (c ≤ 'f')) ||
  (decide ('A' ≤ c) && decide (c ≤ 'F'))

def isHexStr (s : String) : Bool :=
  s.data.all isHexDigit && decide (0 < s.length) && decide (s.length % 2 = 0)

/-- Lower-casing of an ASCII letter, as done digit by digit inside
uint256S's hex decoding. -/
def lowerChar (c : Char) : Char :=
  if decide ('A' ≤ c) && decide (c ≤ 'Z') then Char.ofNat (c.toNat + 32) else c

/-- uint256S on a validated 64-character hex string: the value is the
case-insensitive digit sequence, modelled as the lowercased string. -/
def parseHash256 (s : String) : Hash256 := ⟨s.data.map lowerChar⟩

/-- The txid-parsing loop of gettxoutproof: validates each entry, rejects
duplicates, and accumulates the requested set (std::set modelled by its
membership, as a duplicate-free list) together with the last parsed id
(oneTxid). -/
def parseTxidsLoop : List String → List Txid → Option Txid →
    Except RpcError (List Txid × Option Txid)
  | [], setTxids, oneTxid => .ok (setTxids, oneTxid)
  | s :: rest, setTxids, _oneTxid =>
    if !(decide (s.length = 64) && isHexStr s) then
      .error ⟨.invalidParameter, "Invalid txid " ++ s⟩
    else
      let h := parseHash256 s
      if h ∈ setTxids then
        .error ⟨.invalidParameter, "Invalid parameter, duplicated txid: " ++ s⟩
      else
        parseTxidsLoop rest (setTxids ++ [h]) (some h)

def parseTxids (raw : List String) : Except RpcError (List Txid × Option Txid) :=
  parseTxidsLoop raw [] none

/-- Chain state consulted by gettxoutproof.  Block indices are identified
by their block hash; ReadBlockFromDisk yields the ordered txid list of the
block; GetTransaction yields the containing block hash when the
transaction index finds one (none covers both failure and a null hash);
buildProof is the external CMerkleBlock construction plus serialization. -/
structure ProofChainState where
  blockIndexHas : Hash256 → Bool
  coinsTip : CoinsView
  chainActiveHeight : Int
  chainActiveAt : Int → Option Hash256
  getTransactionBlock : Txid → Option Hash256
  readBlock : Hash256 → Option (List Txid)
  buildProof : List Txid → List Txid → String

/-- Target-block resolution of gettxoutproof: an explicit block-hash
argument must be a known index; otherwise the utxo entry of the last
requested txid gives a height on the active chain, when confirmed. -/
def resolveBlockIndex (st : ProofChainState) (oneTxid : Option Txid)
    (blockhashParam : Option String) : Except RpcError (Option Hash256) :=
  match blockhashParam with
  | some hb =>
    let hashBlock := parseHash256 hb
    if !st.blockIndexHas hashBlock then
      .error ⟨.invalidAddressOrKey, "Block not found"⟩
    else
      .ok (some hashBlock)
  | none =>
    match st.coinsTip (oneTxid.getD "") with
    | some coins =>
      if decide (0 < coins.nHeight) && decide (coins.nHeight ≤ st.chainActiveHeight) then
        .ok (st.chainActiveAt coins.nHeight)
      else
        .ok none
    | none => .ok none

/-- Fallback block resolution through the transaction index when the utxo
route produced nothing. -/
def fallbackBlockIndex (st : ProofChainState) (oneTxid : Option Txid) :
    Option Hash256 → Except RpcError Hash256
  | some b => .ok b
  | none =>
    match st.getTransactionBlock (oneTxid.getD "") with
    | none => .error ⟨.invalidAddressOrKey, "Transaction not yet in block"⟩
    | some hashBlock =>
      if !st.blockIndexHas hashBlock then
        .error ⟨.internalError, "Transaction index corrupt"⟩
      else
        .ok hashBlock

/-- The found-count check and proof construction over the block contents
(lines 406-417): every requested id must be found in the block's txid
list, else the whole request fails and no proof is produced. -/
def gettxoutproofAfterBlock (st : ProofChainState) (setTxids : List Txid)
    (vtx : List Txid) : Except RpcError String :=
  let ntxFound := vtx.countP (fun tx => decide (tx ∈ setTxids))
  if ntxFound ≠ setTxids.length then
    .error ⟨.invalidAddressOrKey, "(Not all) transactions not found in specified block"⟩
  else
    .ok (st.buildProof vtx setTxids)

/-- gettxoutproof: parse the requested ids, resolve and read the target
block, require all ids to be present, and build the proof. -/
def gettxoutproof (st : ProofChainState) (txidParams : List String)
    (blockhashParam : Option String) : Except RpcError String := do
  let (setTxids, oneTxid) ← parseTxids txidParams
  let pblockindexOpt ← resolveBlockIndex st oneTxid blockhashParam
  let pblockindex ← fallbackBlockIndex st oneTxid pblockindexOpt
  match st.readBlock pblockindex with
  | none => .error ⟨.internalError, "Cannot read block from disk"⟩
  | some vtx => gettxoutproofAfterBlock st setTxids vtx

/-! ## signrawtransaction (lines 697-959)

The signing driver: deserialize one or more transaction variants, snapshot
the relevant coins, apply caller-declared previous outputs, select the
sighash type, then per input produce a signature, merge the variants'
solutions, write the result back, and verify.  ProduceSignature,
CombineSignatures, DataFromTransaction and VerifyScript live in
script/sign.cpp / script/interpreter.cpp outside the provided sources and
are parameters here (the SignOracle). -/

/-- SignatureData (script/sign.h): unlocking script plus witness stack. -/
structure SignatureData where
  scriptSig : Script
  scriptWitness : ScriptWitness
deriving DecidableEq, Repr

def emptySignatureData : SignatureData := ⟨[], ⟨[]⟩⟩

/-- Replace the element at index i (identity off the end), keeping every
other element: used for the in-place writes of the signing loop. -/
def listSetAt {α : Type} : List α → Nat → (α → α) → List α
  | [], _, _ => []
  | a :: t, 0, f => f a :: t
  | a :: t, n + 1, f => a :: listSetAt t n f

/-- std::vector::resize to length n with default filler. -/
def listResize {α : Type} (l : List α) (n : Nat) (filler : α) : List α :=
  l.take n ++ List.replicate (n - l.length) filler

/-- Modelled from the spec: UpdateTransaction (script/sign.cpp) is not
under src/; per section 4.2 step 4 the combined solution is written into
input i's unlocking script and witness slot, the witness vector being
sized to the input count when witness data is present. -/
def updateTransaction (tx : MutableTransaction) (i : Nat)
    (d : SignatureData) : MutableTransaction :=
  let vin' := listSetAt tx.vin i (fun txin => { txin with scriptSig := d.scriptSig })
  let wit' :=
    if !d.scriptWitness.stack.isEmpty || decide (i < tx.wit.length) then
      listSetAt (listResize tx.wit tx.vin.length ⟨[]⟩) i (fun _ => d.scriptWitness)
    else
      tx.wit
  { tx with vin := vin', wit := wit' }

/-- The external signing and script-evaluation capabilities used by the
per-input loop: `produce i prevPubKey amount` is the outcome of
ProduceSignature on a fresh SignatureData for input i (keystore and
sighash type baked in); `combine` is CombineSignatures for the given
locking script and checker position; `dataFrom txv i` is
DataFromTransaction; `verify scriptSig prevPubKey witness i amount` is
VerifyScript under the standard flag set, reporting the script error
string on failure. -/
structure SignOracle where
  produce : Nat → Script → Int → SignatureData
  combine : Script → Nat → Int → SignatureData → SignatureData → SignatureData
  dataFrom : MutableTransaction → Nat → SignatureData
  verify : Script → Script → Option ScriptWitness → Nat → Int → Option String

/-- SIGHASH selector values (script/interpreter.h). -/
def SIGHASH_ALL : Nat := 1
def SIGHASH_NONE : Nat := 2
def SIGHASH_SINGLE : Nat := 3
def SIGHASH_ANYONECANPAY : Nat := 0x80

/-- fHashSingle: `(nHashType & ~SIGHASH_ANYONECANPAY) == SIGHASH_SINGLE`,
clearing bit 7 of a non-negative selector. -/
def fHashSingleOf (nHashType : Nat) : Bool :=
  decide (nHashType - (nHashType &&& SIGHASH_ANYONECANPAY) = SIGHASH_SINGLE)

/-- InputErrorRecord: the JSON object pushed by TxInErrorToJSON. -/
structure InputErrorRecord where
  txid : Txid
  vout : Nat
  scriptSig : Script
  sequence : Nat
  error : String
deriving DecidableEq, Repr

def txInErrorToJSON (txin : TxIn) (msg : String) : InputErrorRecord :=
  ⟨txin.prevout.hash, txin.prevout.n, txin.scriptSig, txin.nSequence, msg⟩

/-- One iteration of the signing loop (lines 922-948) at input index i:
resolve the coin (missing or spent records an error and moves on), produce
a signature unless SIGHASH_SINGLE lacks a paired output, fold the
variants' solutions through CombineSignatures, write the result into the
transaction, and verify the final script, appending any script error. -/
def processInput (view : CoinsView) (oracle : SignOracle)
    (txVariants : List MutableTransaction) (fHashSingle : Bool)
    (acc : MutableTransaction × List InputErrorRecord) (i : Nat) :
    MutableTransaction × List InputErrorRecord :=
  let tx := acc.1
  let errs := acc.2
  match tx.vin.get? i with
  | none => acc
  | some txin =>
    match (view txin.prevout.hash).bind (fun coins => coins.outAt txin.prevout.n) with
    | none =>
      (tx, errs ++ [txInErrorToJSON txin "Input not found or already spent"])
    | some prevOut =>
      let prevPubKey := prevOut.scriptPubKey
      let amount := prevOut.nValue
      let sigdata0 :=
        if !fHashSingle || decide (i < tx.vout.length) then
          oracle.produce i prevPubKey amount
        else
          emptySignatureData
      let sigdata := txVariants.foldl
        (fun sd txv => oracle.combine prevPubKey i amount sd (oracle.dataFrom txv i))
        sigdata0
      let txUpd := updateTransaction tx i sigdata
      let witArg := txUpd.wit.get? i
      let txinUpd := { txin with scriptSig := sigdata.scriptSig }
      match oracle.verify txinUpd.scriptSig prevPubKey witArg i amount with
      | some serr => (txUpd, errs ++ [txInErrorToJSON txinUpd serr])
      | none => (txUpd, errs)

/-- The full signing loop over all inputs of the merged transaction, in
input order, starting from the primary variant and an empty error list. -/
def signAll (view : CoinsView) (oracle : SignOracle)
    (txVariants : List MutableTransaction) (fHashSingle : Bool)
    (tx0 : MutableTransaction) : MutableTransaction × List InputErrorRecord :=
  (List.range tx0.vin.length).foldl
    (processInput view oracle txVariants fHashSingle) (tx0, [])

/-- A caller-declared previous output (one prevtxs entry after its field
parsing): txid, output index (negative rejected), declared locking
script, optional redeem script, optional amount. -/
structure PrevOutDecl where
  txid : Txid
  nOut : Int
  scriptPubKey : Script
  redeemScript : Option Script
  amount : Option Int
deriving Repr

/-- The write into ModifyCoins for one declared previous output: grow the
output vector to cover index n and store the declared script with the
declared (or zero) amount. -/
def writeDeclared (view : CoinsView) (p : PrevOutDecl) (coins : CCoins)
    (n : Nat) : CoinsView :=
  let grown := if coins.vout.length ≤ n then listResize coins.vout (n + 1) none
               else coins.vout
  let voutNew := listSetAt grown n
    (fun _ => some ⟨(p.amount).getD 0, p.scriptPubKey⟩)
  fun t => if t = p.txid then some { coins with vout := voutNew } else view t

/-- Applying one caller-declared previous output to the view
(lines 843-867): a negative index is rejected; an outpoint that already
resolves to an available coin with a different locking script is a hard
error; otherwise the declared output is written into the view (value from
the declared amount, default zero). -/
def applyPrevOut (view : CoinsView) (p : PrevOutDecl) :
    Except RpcError CoinsView :=
  if p.nOut < 0 then
    .error ⟨.deserializationError, "vout must be positive"⟩
  else
    let coins := (view p.txid).getD ⟨[], 0⟩
    let n := p.nOut.toNat
    match coins.outAt n with
    | some existing =>
      if existing.scriptPubKey ≠ p.scriptPubKey then
        .error ⟨.deserializationError, "Previous output scriptPubKey mismatch"⟩
      else
        .ok (writeDeclared view p coins n)
    | none => .ok (writeDeclared view p coins n)

/-- The prevtxs loop: declarations are applied left to right; the first
failing declaration rejects the whole call. -/
def applyPrevOuts (view : CoinsView) : List PrevOutDecl →
    Except RpcError CoinsView
  | [] => .ok view
  | p :: rest =>
    match applyPrevOut view p with
    | .ok view' => applyPrevOuts view' rest
    | .error e => .error e

/-- The JSON result object of signrawtransaction: the finalized
transaction, the completeness flag, and the error list (present only when
non-empty). -/
structure SignResult where
  hex : MutableTransaction
  complete : Bool
  errors : Option (List InputErrorRecord)
deriving Repr

/-- signrawtransaction after deserialization and key collection: the
variants (the primary first), the snapshotted view, the caller-declared
previous outputs, and the selected sighash type drive the per-input loop;
the result reports completeness as emptiness of the error list. -/
def signrawtransaction (view0 : CoinsView) (oracle : SignOracle)
    (txVariants : List MutableTransaction) (prevTxs : List PrevOutDecl)
    (nHashType : Nat) : Except RpcError SignResult :=
  match txVariants with
  | [] => .error ⟨.deserializationError, "Missing transaction"⟩
  | tx0 :: _ =>
    match applyPrevOuts view0 prevTxs with
    | .error e => .error e
    | .ok view =>
      let fHashSingle := fHashSingleOf nHashType
      let result := signAll view oracle txVariants fHashSingle tx0
      .ok { hex := result.1
            complete := result.2.isEmpty
            errors := if result.2.isEmpty then none else some result.2 }

/-! ## Spec-modelled signature combination (spec section 4.2, step 3)

CombineSignatures (script/sign.cpp) is not under src/; only its caller is
(lines 937-940).  The specification pins down its observable behaviour:
the final unlocking content depends only on the set of distinct valid
signature/public-key pairs discovered, matched against the ordered
public-key list of the locking script. -/

abbrev Sig := Nat
abbrev PubKey := Nat

/-- Modelled from the spec: CombineSignatures is outside src/.  Per
section 4.2 step 3 a per-input solution is the set of distinct valid
signature/public-key pairs it carries; combining two solutions merges the
sets, keeping exactly the pairs that validate and name one of the locking
script's ordered public keys (never removing a previously valid
signature). -/
def combineSolutions (valid : Sig → PubKey → Bool) (pubkeys : List PubKey)
    (a b : Finset (Sig × PubKey)) : Finset (Sig × PubKey) :=
  (a ∪ b).filter (fun p => valid p.1 p.2 = true ∧ p.2 ∈ pubkeys)

/-- Modelled from the spec: the unlocking content assembled from a
solution, written against the ordered public-key list — for each public
key, in order, the least signature the solution matches to it.  Equal
solution sets always assemble to identical content. -/
def assembleContent (pubkeys : List PubKey) (s : Finset (Sig × PubKey)) :
    List (WithTop Sig) :=
  pubkeys.map (fun pk => ((s.filter (fun p => p.2 = pk)).image Prod.fst).min)

/-- The variant-merging fold of the signing loop (lines 937-940), with the
spec-modelled combination: starting from the produced solution, each
variant's extracted content for the input is combined in, left to right. -/
def combineVariantsFold (valid : Sig → PubKey → Bool) (pubkeys : List PubKey)
    (init : Finset (Sig × PubKey))
    (variantData : List (Finset (Sig × PubKey))) : Finset (Sig × PubKey) :=
  variantData.foldl (combineSolutions valid pubkeys) init

/-! ## Concrete fixtures used to instantiate the theorems below on small
inputs. -/

/-- A sample locking script, output, and coin set. -/
def demoTxOut : TxOut := ⟨7, [0xA9, 0x14]⟩

def demoCoins : CCoins := ⟨[some demoTxOut], 5⟩

/-- A view holding demoCoins under txid "aa". -/
def demoView : CoinsView := fun t => if t = "aa" then some demoCoins else none

/-- The everywhere-empty view. -/
def emptyView : CoinsView := fun _ => none

def demoTxIn : TxIn := ⟨⟨"aa", 0⟩, [0x01], 4294967295⟩

/-- A one-input, zero-output transaction spending demoCoins. -/
def demoTxNoOut : MutableTransaction := ⟨1, 0, [demoTxIn], [], []⟩

/-- A one-input, one-output transaction spending demoCoins. -/
def demoTx : MutableTransaction := ⟨1, 0, [demoTxIn], [⟨6, [0x51]⟩], []⟩

/-- A concrete signing oracle: production emits a recognizable byte,
combination concatenates unlocking bytes, extraction reads the variant's
unlocking script, and verification accepts any non-empty script. -/
def demoOracle : SignOracle where
  produce := fun _ _ _ => ⟨[0xAB], ⟨[]⟩⟩
  combine := fun _ _ _ sd d => ⟨sd.scriptSig ++ d.scriptSig, sd.scriptWitness⟩
  dataFrom := fun txv i => ⟨((txv.vin.get? i).map TxIn.scriptSig).getD [], ⟨[]⟩⟩
  verify := fun ss _ _ _ _ => if ss.isEmpty then some "Script evaluation failed" else none

/-- The failure carried by an RPC outcome, when there is one. -/
def rpcFailure {α : Type} : Except RpcError α → Option RpcError
  | .error e => some e
  | .ok _ => none

/-- A well-formed 64-character hex txid string used in concrete tests. -/
def a64 : String :=
  "aaaaaaaaaaaaaaaaaaaaaaaaaaaaaaaaaaaaaaaaaaaaaaaaaaaaaaaaaaaaaaaa"

/-- A chain state for gettxoutproof with no blocks at all. -/
def demoProofState : ProofChainState where
  blockIndexHas := fun _ => false
  coinsTip := emptyView
  chainActiveHeight := 0
  chainActiveAt := fun _ => none
  getTransactionBlock := fun _ => none
  readBlock := fun _ => none
  buildProof := fun _ _ => ""

/-! ## Helper lemmas -/

theorem except_bind_ok {α β ε : Type} (a : α) (f : α → Except ε β) :
    (Except.ok a >>= f) = f a := rfl

theorem except_bind_error {α β ε : Type} (e : ε) (f : α → Except ε β) :
    ((Except.error e : Except ε α) >>= f) = Except.error e := rfl

theorem length_listSetAt {α : Type} (l : List α) (i : Nat) (f : α → α) :
    (listSetAt l i f).length = l.length := by
  induction l generalizing i with
  | nil => rfl
  | cons a t ih =>
    cases i with
    | zero => rfl
    | succ n => simp [listSetAt, ih]

theorem updateTransaction_vin_length (tx : MutableTransaction) (i : Nat)
    (d : SignatureData) :
    (updateTransaction tx i d).vin.length = tx.vin.length := by
  simp [updateTransaction, length_listSetAt]

theorem updateTransaction_vout (tx : MutableTransaction) (i : Nat)
    (d : SignatureData) : (updateTransaction tx i d).vout = tx.vout := by
  simp [updateTransaction]

/-! ## Claim theorems -/

/-- C1 counterexample: the claim says the already-in-chain hard failure is
raised only for transactions not in the pending pool, and that a
pending-pool member always succeeds.  Concretely, for a transaction that
is in the pending pool while confirmed coins for it exist in the chain
state, sendrawtransaction raises the already-in-chain failure instead of
succeeding. -/
theorem sendrawtransaction_pool_member_in_chain_fails_cex :
    (fun t => decide (t = "aa") : Txid → Bool) "aa" = true ∧
    sendrawtransaction
      ⟨demoView, fun t => decide (t = "aa")⟩ (fun _ => .accepted) "aa" 10 false
      = .error ⟨.transactionAlreadyInChain, "transaction already in block chain"⟩ := by
  constructor
  · decide
  · rfl

/-- C1 (amended): a transaction already in the pending pool is treated as
already submitted and succeeds without re-running validation (the outcome
is independent of the pool-validation capability) provided no confirmed
coins for it exist in the chain state; the already-in-chain hard failure
is raised exactly for transactions with confirmed coins (height below
1000000000), whether or not they are in the pending pool. -/
theorem sendrawtransaction_pool_member_behaviour (st : NodeState)
    (validate : Int → PoolValidationOutcome) (hashTx : Txid)
    (maxTxFee : Int) (allowHighFees : Bool) :
    (st.mempoolContains hashTx = true → haveChain st hashTx = false →
      sendrawtransaction st validate hashTx maxTxFee allowHighFees = .ok hashTx) ∧
    (haveChain st hashTx = true →
      sendrawtransaction st validate hashTx maxTxFee allowHighFees =
        .error ⟨.transactionAlreadyInChain, "transaction already in block chain"⟩) := by
  constructor
  · intro hm hc
    simp [sendrawtransaction, hm, hc]
  · intro hc
    simp [sendrawtransaction, hc]

/-- Witness for C1 (amended), at concrete states: a pool member with no
confirmed coins succeeds for an arbitrary rejecting validator; a
transaction with confirmed coins fails with the already-in-chain error. -/
theorem sendrawtransaction_pool_member_behaviour_witness :
    sendrawtransaction ⟨emptyView, fun t => decide (t = "bb")⟩
      (fun _ => .otherRejected "no") "bb" 10 false = .ok "bb" ∧
    sendrawtransaction ⟨demoView, fun _ => false⟩
      (fun _ => .accepted) "aa" 10 false =
      .error ⟨.transactionAlreadyInChain, "transaction already in block chain"⟩ :=
  ⟨(sendrawtransaction_pool_member_behaviour
      ⟨emptyView, fun t => decide (t = "bb")⟩ (fun _ => .otherRejected "no")
      "bb" 10 false).1 (by decide) (by decide),
   (sendrawtransaction_pool_member_behaviour
      ⟨demoView, fun _ => false⟩ (fun _ => .accepted) "aa" 10 false).2 (by decide)⟩

/-- C2: a proof whose extraction succeeds and whose recomputed root equals
the claimed merkle root, but whose header is not on the trusted best
chain, is rejected: verifytxoutproof yields the invalid (error) result and
returns no matched ids. -/
theorem verifytxoutproof_nonbest_header_rejected
    (chainActiveContains : Hash256 → Bool) (hdr : MerkleBlockHeader)
    (extractedRoot : Hash256) (vMatch : List Hash256)
    (hroot : extractedRoot = hdr.hashMerkleRoot)
    (hchain : chainActiveContains hdr.headerHash = false) :
    verifytxoutproof chainActiveContains hdr extractedRoot vMatch =
      .error ⟨.invalidAddressOrKey, "Block not found in chain"⟩ := by
  simp [verifytxoutproof, hroot, hchain]

/-- Witness for C2: a concrete self-consistent proof whose header is
unknown to the best chain is rejected with the error result. -/
theorem verifytxoutproof_nonbest_header_rejected_witness :
    verifytxoutproof (fun _ => false) ⟨"ff", "bb"⟩ "ff" ["aa"] =
      .error ⟨.invalidAddressOrKey, "Block not found in chain"⟩ :=
  verifytxoutproof_nonbest_header_rejected (fun _ => false) ⟨"ff", "bb"⟩
    "ff" ["aa"] rfl rfl

/-- C4: combining two variants in order [A, B] and in order [B, A] yields
the same solution and hence, for the input, the same final unlocking
content: the outcome of the spec-modelled combination depends only on the
set of distinct valid signature/public-key pairs, not on variant order. -/
theorem combineSignatures_order_independent (valid : Sig → PubKey → Bool)
    (pubkeys : List PubKey) (init A B : Finset (Sig × PubKey)) :
    combineVariantsFold valid pubkeys init [A, B] =
      combineVariantsFold valid pubkeys init [B, A] ∧
    assembleContent pubkeys (combineVariantsFold valid pubkeys init [A, B]) =
      assembleContent pubkeys (combineVariantsFold valid pubkeys init [B, A]) := by
  have h : combineVariantsFold valid pubkeys init [A, B] =
      combineVariantsFold valid pubkeys init [B, A] := by
    ext p
    simp only [combineVariantsFold, List.foldl, combineSolutions,
      Finset.mem_filter, Finset.mem_union]
    tauto
  exact ⟨h, by rw [h]⟩

/-- C6: an input whose referenced coin is absent or already spent gets
exactly one error record, with reason "Input not found or already spent"
and the input's current unlocking script carried into the record; the
transaction is left unchanged for that input, and the loop continues with
the remaining inputs. -/
theorem signing_missing_input_recorded_and_continues (view : CoinsView)
    (oracle : SignOracle) (txVariants : List MutableTransaction)
    (fHashSingle : Bool) (tx : MutableTransaction)
    (errs : List InputErrorRecord) (i : Nat) (txin : TxIn)
    (hin : tx.vin.get? i = some txin)
    (hmiss : (view txin.prevout.hash).bind
      (fun coins => coins.outAt txin.prevout.n) = none) :
    processInput view oracle txVariants fHashSingle (tx, errs) i =
      (tx, errs ++ [txInErrorToJSON txin "Input not found or already spent"]) ∧
    ∀ rest, List.foldl (processInput view oracle txVariants fHashSingle)
        (tx, errs) (i :: rest) =
      List.foldl (processInput view oracle txVariants fHashSingle)
        (tx, errs ++ [txInErrorToJSON txin "Input not found or already spent"])
        rest := by
  have h1 : processInput view oracle txVariants fHashSingle (tx, errs) i =
      (tx, errs ++ [txInErrorToJSON txin "Input not found or already spent"]) := by
    simp only [processInput, hin, hmiss]
  exact ⟨h1, fun rest => by rw [List.foldl_cons, h1]⟩

/-- Witness for C6: a concrete transaction whose only input spends a coin
the view does not know; the record is produced and the loop goes on. -/
theorem signing_missing_input_recorded_and_continues_witness :
    processInput emptyView demoOracle [demoTxNoOut] false (demoTxNoOut, []) 0 =
      (demoTxNoOut, [⟨"aa", 0, [0x01], 4294967295,
        "Input not found or already spent"⟩]) ∧
    List.foldl (processInput emptyView demoOracle [demoTxNoOut] false)
        (demoTxNoOut, []) [0] =
      List.foldl (processInput emptyView demoOracle [demoTxNoOut] false)
        (demoTxNoOut, [⟨"aa", 0, [0x01], 4294967295,
          "Input not found or already spent"⟩]) [] :=
  ⟨(signing_missing_input_recorded_and_continues emptyView demoOracle
      [demoTxNoOut] false demoTxNoOut [] 0 demoTxIn rfl rfl).1,
   (signing_missing_input_recorded_and_continues emptyView demoOracle
      [demoTxNoOut] false demoTxNoOut [] 0 demoTxIn rfl rfl).2 []⟩

/-- C3: when the sighash selector is SINGLE (with or without
ANYONECANPAY) and the input index has no corresponding output, signature
production for that input is skipped as a no-op: the combination starts
from the empty solution (the produce capability is never consulted) and
the only error the step can append comes from verification, not from
production. -/
theorem signing_single_without_output_skips_production (view : CoinsView)
    (oracle : SignOracle) (txVariants : List MutableTransaction)
    (nHashType : Nat) (tx : MutableTransaction)
    (errs : List InputErrorRecord) (i : Nat) (txin : TxIn) (prevOut : TxOut)
    (hin : tx.vin.get? i = some txin)
    (hcoin : (view txin.prevout.hash).bind
      (fun coins => coins.outAt txin.prevout.n) = some prevOut)
    (hsingle : fHashSingleOf nHashType = true)
    (hno : tx.vout.length ≤ i) :
    processInput view oracle txVariants (fHashSingleOf nHashType)
        (tx, errs) i =
      (let sigdata := txVariants.foldl
          (fun sd txv => oracle.combine prevOut.scriptPubKey i prevOut.nValue
            sd (oracle.dataFrom txv i)) emptySignatureData
       let txUpd := updateTransaction tx i sigdata
       match oracle.verify sigdata.scriptSig prevOut.scriptPubKey
           (txUpd.wit.get? i) i prevOut.nValue with
       | some serr =>
         (txUpd, errs ++
           [txInErrorToJSON { txin with scriptSig := sigdata.scriptSig } serr])
       | none => (txUpd, errs)) := by
  have hlt : ¬ i < tx.vout.length := Nat.not_lt.mpr hno
  simp only [processInput, hin, hcoin, hsingle, hlt, Bool.not_true,
    Bool.false_or, decide_eq_true_eq, if_false]

/-- Witness for C3: one input, zero outputs, SIGHASH_SINGLE; the oracle's
produce capability would emit the byte 0xAB, yet the final unlocking
script is only the variant's own content — production was skipped and no
error was raised. -/
theorem signing_single_without_output_skips_production_witness :
    processInput demoView demoOracle [demoTxNoOut]
        (fHashSingleOf SIGHASH_SINGLE) (demoTxNoOut, []) 0 =
      (updateTransaction demoTxNoOut 0 ⟨[0x01], ⟨[]⟩⟩, []) :=
  (signing_single_without_output_skips_production demoView demoOracle
    [demoTxNoOut] SIGHASH_SINGLE demoTxNoOut [] 0 demoTxIn demoTxOut
    rfl rfl rfl (by decide)).trans (by rfl)

/-- C5: when the call goes through, the returned result is exactly the
outcome of the per-input loop run in input order — the finalized
transaction, a completeness flag, and the error list included only when
non-empty — and the completeness flag is true precisely when the
accumulated error record list is empty. -/
theorem signrawtransaction_complete_iff_no_errors (view0 : CoinsView)
    (oracle : SignOracle) (tx0 : MutableTransaction)
    (rest : List MutableTransaction) (prevTxs : List PrevOutDecl)
    (nHashType : Nat) (view : CoinsView)
    (hprev : applyPrevOuts view0 prevTxs = .ok view) :
    signrawtransaction view0 oracle (tx0 :: rest) prevTxs nHashType =
      .ok { hex := (signAll view oracle (tx0 :: rest)
                     (fHashSingleOf nHashType) tx0).1
            complete := (signAll view oracle (tx0 :: rest)
                     (fHashSingleOf nHashType) tx0).2.isEmpty
            errors := if (signAll view oracle (tx0 :: rest)
                     (fHashSingleOf nHashType) tx0).2.isEmpty then none
                      else some (signAll view oracle (tx0 :: rest)
                     (fHashSingleOf nHashType) tx0).2 } ∧
    ((signAll view oracle (tx0 :: rest) (fHashSingleOf nHashType) tx0).2.isEmpty
        = true ↔
      (signAll view oracle (tx0 :: rest) (fHashSingleOf nHashType) tx0).2
        = []) := by
  constructor
  · simp [signrawtransaction, hprev]
  · exact List.isEmpty_iff

/-- Witness for C5: a fully resolvable one-input transaction signs with an
empty error list, and the result reports complete = true with no errors
field. -/
theorem signrawtransaction_complete_iff_no_errors_witness :
    signrawtransaction demoView demoOracle [demoTx] [] SIGHASH_ALL =
      .ok { hex := updateTransaction demoTx 0 ⟨[0xAB, 0x01], ⟨[]⟩⟩
            complete := true
            errors := none } :=
  ((signrawtransaction_complete_iff_no_errors demoView demoOracle demoTx []
      [] SIGHASH_ALL demoView rfl).1).trans (by rfl)

/-- The prevtxs loop splits over list append: the second half runs on the
view produced by the first, and a failure in the first half is final. -/
theorem applyPrevOuts_append (view : CoinsView) (a b : List PrevOutDecl) :
    applyPrevOuts view (a ++ b) =
      match applyPrevOuts view a with
      | .ok v => applyPrevOuts v b
      | .error e => .error e := by
  induction a generalizing view with
  | nil => rfl
  | cons p t ih =>
    simp only [List.cons_append, applyPrevOuts]
    cases applyPrevOut view p with
    | ok v => exact ih v
    | error e => rfl

/-- C7: a caller-declared previous output whose outpoint already resolves
to an available coin with a different locking script is a hard error: the
whole signrawtransaction call is rejected with the mismatch error and no
signing result is produced. -/
theorem signrawtransaction_conflicting_prevout_rejected
    (view0 view1 : CoinsView) (oracle : SignOracle)
    (tx0 : MutableTransaction) (rest : List MutableTransaction)
    (ps1 ps2 : List PrevOutDecl) (p : PrevOutDecl) (nHashType : Nat)
    (existing : TxOut)
    (hpre : applyPrevOuts view0 ps1 = .ok view1)
    (hn : ¬ p.nOut < 0)
    (hexist : ((view1 p.txid).getD ⟨[], 0⟩).outAt p.nOut.toNat = some existing)
    (hne : existing.scriptPubKey ≠ p.scriptPubKey) :
    signrawtransaction view0 oracle (tx0 :: rest) (ps1 ++ p :: ps2) nHashType =
      .error ⟨.deserializationError, "Previous output scriptPubKey mismatch"⟩ := by
  have h1 : applyPrevOut view1 p =
      .error ⟨.deserializationError, "Previous output scriptPubKey mismatch"⟩ := by
    simp [applyPrevOut, hn, hexist, hne]
  have h2 : applyPrevOuts view0 (ps1 ++ p :: ps2) =
      .error ⟨.deserializationError, "Previous output scriptPubKey mismatch"⟩ := by
    rw [applyPrevOuts_append, hpre]
    simp only [applyPrevOuts, h1]
  simp [signrawtransaction, h2]

/-- Witness for C7: declaring outpoint aa:0 with a locking script that
contradicts the coin already in the view rejects the whole call. -/
theorem signrawtransaction_conflicting_prevout_rejected_witness :
    signrawtransaction demoView demoOracle [demoTx]
        [⟨"aa", 0, [0xFF], none, none⟩] SIGHASH_ALL =
      .error ⟨.deserializationError, "Previous output scriptPubKey mismatch"⟩ :=
  signrawtransaction_conflicting_prevout_rejected demoView demoView demoOracle
    demoTx [] [] [] ⟨"aa", 0, [0xFF], none, none⟩ SIGHASH_ALL demoTxOut
    rfl (by decide) rfl (by decide)

/-- One signing-loop step never changes the input count and never touches
the output list. -/
theorem processInput_shape (view : CoinsView) (oracle : SignOracle)
    (txVariants : List MutableTransaction) (fHashSingle : Bool)
    (acc : MutableTransaction × List InputErrorRecord) (i : Nat) :
    (processInput view oracle txVariants fHashSingle acc i).1.vin.length =
      acc.1.vin.length ∧
    (processInput view oracle txVariants fHashSingle acc i).1.vout =
      acc.1.vout := by
  rcases acc with ⟨tx, errs⟩
  simp only [processInput]
  split
  · exact ⟨rfl, rfl⟩
  · split
    · exact ⟨rfl, rfl⟩
    · split
      · exact ⟨updateTransaction_vin_length tx i _, updateTransaction_vout tx i _⟩
      · exact ⟨updateTransaction_vin_length tx i _, updateTransaction_vout tx i _⟩

/-- C8: the signing engine preserves the transaction shape — the finalized
transaction has the same number of inputs and the same outputs as the
primary input transaction; only unlocking content is mutated. -/
theorem signing_preserves_input_output_counts (view : CoinsView)
    (oracle : SignOracle) (txVariants : List MutableTransaction)
    (fHashSingle : Bool) (tx0 : MutableTransaction) :
    (signAll view oracle txVariants fHashSingle tx0).1.vin.length =
      tx0.vin.length ∧
    (signAll view oracle txVariants fHashSingle tx0).1.vout = tx0.vout ∧
    (signAll view oracle txVariants fHashSingle tx0).1.vout.length =
      tx0.vout.length := by
  have aux : ∀ (ixs : List Nat) (acc : MutableTransaction × List InputErrorRecord),
      (ixs.foldl (processInput view oracle txVariants fHashSingle) acc).1.vin.length
        = acc.1.vin.length ∧
      (ixs.foldl (processInput view oracle txVariants fHashSingle) acc).1.vout
        = acc.1.vout := by
    intro ixs
    induction ixs with
    | nil => exact fun acc => ⟨rfl, rfl⟩
    | cons i t ih =>
      intro acc
      have hstep := processInput_shape view oracle txVariants fHashSingle acc i
      have htail := ih (processInput view oracle txVariants fHashSingle acc i)
      exact ⟨htail.1.trans hstep.1, htail.2.trans hstep.2⟩
  have h := aux (List.range tx0.vin.length) (tx0, [])
  exact ⟨h.1, h.2, congrArg List.length h.2⟩

/-- C9: when some requested transaction id is absent from the target
block's (duplicate-free) id list, the found-count check fails and proof
construction errors out — no proof is returned for the subset that was
found. -/
theorem gettxoutproof_missing_txid_fails (st : ProofChainState)
    (setTxids vtx : List Txid) (t : Txid)
    (hvtx : vtx.Nodup) (hmem : t ∈ setTxids) (hnot : t ∉ vtx) :
    gettxoutproofAfterBlock st setTxids vtx =
      .error ⟨.invalidAddressOrKey,
        "(Not all) transactions not found in specified block"⟩ := by
  have hsub : vtx.filter (fun tx => decide (tx ∈ setTxids)) ⊆ setTxids.erase t := by
    intro x hx
    have hx2 := List.of_mem_filter hx
    have hxv := List.mem_of_mem_filter hx
    have hxs : x ∈ setTxids := by simpa using hx2
    have hxt : x ≠ t := fun h => hnot (h ▸ hxv)
    exact (List.mem_erase_of_ne hxt).mpr hxs
  have hnd : (vtx.filter (fun tx => decide (tx ∈ setTxids))).Nodup :=
    hvtx.filter _
  have hle : (vtx.filter (fun tx => decide (tx ∈ setTxids))).length ≤
      (setTxids.erase t).length :=
    (List.subperm_of_subset hnd hsub).length_le
  have hlen : (setTxids.erase t).length = setTxids.length - 1 :=
    List.length_erase_of_mem hmem
  have hpos : 0 < setTxids.length := List.length_pos.mpr (by
    intro h
    rw [h] at hmem
    exact absurd hmem (List.not_mem_nil t))
  have hlt : (vtx.filter (fun tx => decide (tx ∈ setTxids))).length <
      setTxids.length := by
    calc (vtx.filter (fun tx => decide (tx ∈ setTxids))).length
        ≤ setTxids.length - 1 := hlen ▸ hle
      _ < setTxids.length := Nat.sub_lt hpos Nat.one_pos
  have hcount : vtx.countP (fun tx => decide (tx ∈ setTxids)) ≠
      setTxids.length := by
    rw [List.countP_eq_length_filter]
    exact Nat.ne_of_lt hlt
  simp [gettxoutproofAfterBlock, hcount]

/-- Witness for C9: requesting the id "aa" against a block containing only
"bb" fails proof construction. -/
theorem gettxoutproof_missing_txid_fails_witness :
    gettxoutproofAfterBlock demoProofState ["aa"] ["bb"] =
      .error ⟨.invalidAddressOrKey,
        "(Not all) transactions not found in specified block"⟩ :=
  gettxoutproof_missing_txid_fails demoProofState ["aa"] ["bb"] "aa"
    (by decide) (by decide) (by decide)

/-- When the duplicate-free ids accumulated so far together with the
still-unparsed ids contain a repetition, the txid parsing loop ends in an
invalid-parameter error. -/
theorem parseTxidsLoop_dup_error (l : List String) (setTxids : List Txid)
    (one : Option Txid) (hset : setTxids.Nodup)
    (hdup : ¬ (setTxids ++ l.map parseHash256).Nodup) :
    ∃ msg, parseTxidsLoop l setTxids one =
      .error ⟨.invalidParameter, msg⟩ := by
  induction l generalizing setTxids one with
  | nil => exact absurd (by simpa using hset) hdup
  | cons s rest ih =>
    by_cases hval : (!(decide (s.length = 64) && isHexStr s)) = true
    · exact ⟨"Invalid txid " ++ s, by simp [parseTxidsLoop, hval]⟩
    · by_cases hmem : parseHash256 s ∈ setTxids
      · refine ⟨"Invalid parameter, duplicated txid: " ++ s, ?_⟩
        simp only [parseTxidsLoop]
        rw [if_neg (by simpa using hval), if_pos hmem]
      · have hset2 : (setTxids ++ [parseHash256 s]).Nodup := by
          simp [List.nodup_append, hset, hmem]
        have hdup2 : ¬ ((setTxids ++ [parseHash256 s]) ++
            rest.map parseHash256).Nodup := by
          rw [List.append_assoc]
          simpa using hdup
        obtain ⟨msg, hmsg⟩ := ih (setTxids ++ [parseHash256 s])
          (some (parseHash256 s)) hset2 hdup2
        refine ⟨msg, ?_⟩
        simp only [parseTxidsLoop]
        rw [if_neg (by simpa using hval), if_neg hmem]
        exact hmsg

/-- C10: a request whose txid list contains the same id twice is rejected
with an invalid-parameter error by the argument-parsing loop, and
gettxoutproof returns that parse error for every chain state — no block
data is consulted. -/
theorem gettxoutproof_duplicate_txid_rejected (txidParams : List String)
    (st : ProofChainState) (blockhashParam : Option String)
    (hdup : ¬ (txidParams.map parseHash256).Nodup) :
    (rpcFailure (parseTxids txidParams)).map RpcError.code =
      some RpcErrorCode.invalidParameter ∧
    gettxoutproof st txidParams blockhashParam =
      .error ((rpcFailure (parseTxids txidParams)).getD
        ⟨.internalError, ""⟩) := by
  obtain ⟨msg, hmsg⟩ := parseTxidsLoop_dup_error txidParams [] none
    List.nodup_nil (by simpa using hdup)
  have hparse : parseTxids txidParams = .error ⟨.invalidParameter, msg⟩ := hmsg
  constructor
  · rw [hparse]; rfl
  · simp only [gettxoutproof, hparse]
    rfl

/-- Witness for C10: the same valid txid given twice is rejected at parse
time with the duplicated-txid invalid-parameter error, against a chain
state holding no blocks at all. -/
theorem gettxoutproof_duplicate_txid_rejected_witness :
    gettxoutproof demoProofState [a64, a64] none =
      .error ⟨.invalidParameter,
        "Invalid parameter, duplicated txid: " ++ a64⟩ :=
  ((gettxoutproof_duplicate_txid_rejected [a64, a64] demoProofState none
    (by decide)).2).trans (by rfl)

end MilRawTx
